import Mathlib

/-!
Shallow embedding of the calibration-app acquisition/calibration core
(reference implementation: `CalibrationPage` component, `part_003`, plus the
variants of the same component kept in the repository), with theorems checking
the natural-language specification against it.

Numbers are modelled as rationals (the source uses JavaScript numbers); the
transcendental `Math.log` is modelled as an explicit function parameter
`ln : ℚ → ℚ`, so every definition stays executable.  The JavaScript `NaN`
sentinel is modelled by an explicit `SVal.nan` value where the source can
store it.
-/

namespace CalibApp

/-! ### Line framer

Source (`openSerialPort`, part_003 lines 421–434):
```
bufferRef.current += value;
const lines = bufferRef.current.split("\n");
bufferRef.current = lines.pop() || "";
lines.forEach(line => { updateSensorData(line); });
```
`frame s` returns the complete newline-terminated lines of `s` (in order)
together with the trailing unterminated fragment; this is exactly
`s.split("\n")` with the last element popped off as the new buffer. -/

def frame : List Char → List (List Char) × List Char
  | [] => ([], [])
  | c :: cs =>
    let r := frame cs
    if c = '\n' then ([] :: r.1, r.2)
    else
      match r with
      | (l :: ls, t) => ((c :: l) :: ls, t)
      | ([], t) => ([], c :: t)

/-- One `reader.read()` iteration followed by the next ones: the buffer starts
as `buf`, each chunk is appended to the buffer, complete lines are emitted in
arrival order, and the last (unterminated) fragment becomes the new buffer. -/
def feedChunks : List Char → List (List Char) → List (List Char) × List Char
  | buf, [] => ([], buf)
  | buf, c :: cs =>
    let r := frame (buf ++ c)
    let r2 := feedChunks r.2 cs
    (r.1 ++ r2.1, r2.2)

theorem frame_nil : frame [] = ([], []) := rfl

theorem frame_cons_nl (cs : List Char) :
    frame ('\n' :: cs) = ([] :: (frame cs).1, (frame cs).2) := by
  simp [frame]

theorem frame_cons_of_fst_nil (c : Char) (cs : List Char) (hc : c ≠ '\n')
    (h : (frame cs).1 = []) : frame (c :: cs) = ([], c :: (frame cs).2) := by
  rw [frame]
  rcases hr : frame cs with ⟨ls, t⟩
  rw [hr] at h
  simp only at h
  subst h
  simp [if_neg hc, hr]

theorem frame_cons_of_fst_cons (c : Char) (cs l : List Char)
    (ls : List (List Char)) (t : List Char) (hc : c ≠ '\n')
    (h : frame cs = (l :: ls, t)) : frame (c :: cs) = ((c :: l) :: ls, t) := by
  rw [frame, h]
  simp [if_neg hc]

theorem frame_append (a b : List Char) :
    frame (a ++ b) =
      ((frame a).1 ++ (frame ((frame a).2 ++ b)).1, (frame ((frame a).2 ++ b)).2) := by
  induction a with
  | nil => simp [frame_nil]
  | cons c a ih =>
    by_cases hc : c = '\n'
    · subst hc
      rw [List.cons_append, frame_cons_nl, frame_cons_nl, ih]
      simp
    · rcases h1 : frame a with ⟨ls, t⟩
      rcases ls with _ | ⟨l, ls'⟩
      · have hca : frame (c :: a) = ([], c :: t) := by
          rw [frame_cons_of_fst_nil c a hc (by rw [h1]), h1]
        have hab : frame (a ++ b) = frame (t ++ b) := by
          rw [ih, h1]
          simp
        rw [List.cons_append, hca]
        simp only [List.nil_append, List.cons_append]
        rcases h2 : frame (t ++ b) with ⟨ls2, t2⟩
        rcases ls2 with _ | ⟨l2, ls2'⟩
        · rw [frame_cons_of_fst_nil c (a ++ b) hc (by rw [hab, h2]), hab, h2,
            frame_cons_of_fst_nil c (t ++ b) hc (by rw [h2]), h2]
        · rw [frame_cons_of_fst_cons c (a ++ b) l2 ls2' t2 hc (by rw [hab, h2]),
            frame_cons_of_fst_cons c (t ++ b) l2 ls2' t2 hc h2]
      · have hca : frame (c :: a) = ((c :: l) :: ls', t) :=
          frame_cons_of_fst_cons c a l ls' t hc h1
        have hab : frame (a ++ b) =
            (l :: (ls' ++ (frame (t ++ b)).1), (frame (t ++ b)).2) := by
          rw [ih, h1]
          simp
        rw [List.cons_append,
          frame_cons_of_fst_cons c (a ++ b) l (ls' ++ (frame (t ++ b)).1)
            (frame (t ++ b)).2 hc hab, hca]
        simp

theorem frame_of_no_newline (s : List Char) (h : ∀ ch ∈ s, ch ≠ '\n') :
    frame s = ([], s) := by
  induction s with
  | nil => rfl
  | cons c cs ih =>
    have hc : c ≠ '\n' := h c (List.mem_cons_self c cs)
    have ih' := ih (fun ch hch => h ch (List.mem_cons_of_mem c hch))
    rw [frame_cons_of_fst_nil c cs hc (by rw [ih']), ih']

theorem frame_tail_no_newline (s : List Char) : ∀ ch ∈ (frame s).2, ch ≠ '\n' := by
  induction s with
  | nil => intro ch hch; simp [frame_nil] at hch
  | cons c cs ih =>
    intro ch hch
    by_cases hc : c = '\n'
    · subst hc
      rw [frame_cons_nl] at hch
      exact ih ch hch
    · rcases h1 : frame cs with ⟨ls, t⟩
      rcases ls with _ | ⟨l, ls'⟩
      · rw [frame_cons_of_fst_nil c cs hc (by rw [h1]), h1] at hch
        simp only at hch
        rcases List.mem_cons.mp hch with h | h
        · subst h; exact hc
        · exact ih ch (by rw [h1]; exact h)
      · rw [frame_cons_of_fst_cons c cs l ls' t hc h1] at hch
        simp only at hch
        exact ih ch (by rw [h1]; exact hch)

theorem feedChunks_eq_frame (cs : List (List Char)) :
    ∀ buf : List Char, (∀ ch ∈ buf, ch ≠ '\n') →
      feedChunks buf cs = frame (buf ++ cs.flatten) := by
  induction cs with
  | nil =>
    intro buf hbuf
    simp [feedChunks, frame_of_no_newline buf hbuf]
  | cons c cs ih =>
    intro buf hbuf
    have htail := frame_tail_no_newline (buf ++ c)
    have ihc := ih (frame (buf ++ c)).2 htail
    simp only [feedChunks, ihc, List.flatten_cons]
    rw [show buf ++ (c ++ cs.flatten) = (buf ++ c) ++ cs.flatten by simp,
      frame_append (buf ++ c) cs.flatten]

/-- C5: for every input text and every way of splitting it into chunks, feeding
the chunks in order through the line framer yields exactly the same sequence of
complete newline-terminated lines, in arrival order, as feeding the whole text
at once, and the same retained unterminated tail: no line is lost or duplicated
across chunk boundaries. -/
theorem framer_chunking_invariant (chunks : List (List Char)) :
    feedChunks [] chunks = frame chunks.flatten := by
  have h := feedChunks_eq_frame chunks [] (by intro ch hch; simp at hch)
  simpa using h

/-! ### Telemetry parser

Source (`updateSensorData`, part_003 lines 357–369):
```
const tokens = trimmed.split(";");
const dataMap: { [channel: number]: number } = {};
tokens.forEach(token => {
  const parts = token.split(":");
  if (parts.length === 2) {
    const channel = parseInt(parts[0]);
    const value = parseFloat(parts[1]);
    if (!isNaN(channel) && !isNaN(value)) { dataMap[channel] = value; }
  }
});
```
`parseIntJS`/`parseFloatJS` model the JavaScript numeric parsers on plain
decimal input (optional sign, leading digits, and for floats an optional
fractional part; trailing garbage after the numeric prefix is ignored, and a
`none` result models `NaN`). -/

/-- `String.prototype.split(sep)` on character lists: `"".split(sep) = [""]`,
adjacent separators yield empty fields. -/
def splitOnChar (sep : Char) : List Char → List (List Char)
  | [] => [[]]
  | c :: cs =>
    let r := splitOnChar sep cs
    if c = sep then [] :: r
    else
      match r with
      | t :: ts => (c :: t) :: ts
      | [] => [[c]]

def digitVal (c : Char) : Option ℕ :=
  if '0' ≤ c ∧ c ≤ '9' then some (c.toNat - '0'.toNat) else none

/-- Longest digit prefix of the input, with the rest. -/
def takeDigits : List Char → List ℕ × List Char
  | [] => ([], [])
  | c :: cs =>
    match digitVal c with
    | some d =>
      let r := takeDigits cs
      (d :: r.1, r.2)
    | none => ([], c :: cs)

def natOfDigits (ds : List ℕ) : ℕ := ds.foldl (fun a d => 10 * a + d) 0

/-- Strip one optional sign; returns (isNegative, rest). -/
def stripSign : List Char → Bool × List Char
  | '-' :: r => (true, r)
  | '+' :: r => (false, r)
  | r => (false, r)

/-- `parseInt(s)` (radix 10): `none` models `NaN`. -/
def parseIntJS (s : List Char) : Option ℤ :=
  let sg := stripSign s
  let ds := takeDigits sg.2
  if ds.1 = [] then none
  else some (if sg.1 then -(natOfDigits ds.1 : ℤ) else (natOfDigits ds.1 : ℤ))

/-- `parseFloat(s)` on decimal input: `none` models `NaN`. -/
def parseFloatJS (s : List Char) : Option ℚ :=
  let sg := stripSign s
  let ds := takeDigits sg.2
  let fs : List ℕ :=
    match ds.2 with
    | '.' :: r2 => (takeDigits r2).1
    | _ => []
  if ds.1 = [] ∧ fs = [] then none
  else
    let mag : ℚ := (natOfDigits ds.1 : ℚ) + (natOfDigits fs : ℚ) / (10 ^ fs.length)
    some (if sg.1 then -mag else mag)

/-- One token of the telemetry line: split on `:`, require exactly two parts,
parse the channel id and the value; `none` models a skipped token. -/
def parseToken (tok : List Char) : Option (ℤ × ℚ) :=
  match splitOnChar ':' tok with
  | [p1, p2] =>
    match parseIntJS p1, parseFloatJS p2 with
    | some ch, some v => some (ch, v)
    | _, _ => none
  | _ => none

/-- `dataMap[channel] = value` on a JavaScript object modelled as an
association list: an existing key is overwritten in place, a new key is
appended. -/
def mapInsert (m : List (ℤ × ℚ)) (k : ℤ) (v : ℚ) : List (ℤ × ℚ) :=
  match m with
  | [] => [(k, v)]
  | (k', v') :: rest => if k' = k then (k, v) :: rest else (k', v') :: mapInsert rest k v

/-- `dataMap.hasOwnProperty(channel)` / `dataMap[channel]`. -/
def mapLookup (m : List (ℤ × ℚ)) (k : ℤ) : Option ℚ :=
  (m.find? (fun p => p.1 = k)).map (fun p => p.2)

/-- The `tokens.forEach` loop building `dataMap`. -/
def processTokens (m : List (ℤ × ℚ)) (toks : List (List Char)) : List (ℤ × ℚ) :=
  toks.foldl (fun acc tok =>
    match parseToken tok with
    | some cv => mapInsert acc cv.1 cv.2
    | none => acc) m

/-- `parse(line)`: split the line on `;` and fold the tokens into the map. -/
def parseLine (line : List Char) : List (ℤ × ℚ) :=
  processTokens [] (splitOnChar ';' line)

/-- C6: parsing splits on `;` into tokens and on `:` within tokens; a token
not yielding exactly two parts, or whose channel id or value fails numeric
parsing, is skipped without aborting the line (removing such a token from the
token sequence does not change the resulting map); and the input
`"29:120.5;bad-token;31:0"` yields exactly the map `{29 ↦ 120.5, 31 ↦ 0}`. -/
theorem parser_skips_bad_tokens :
    (∀ (pre post : List (List Char)) (tok : List Char) (m : List (ℤ × ℚ)),
        parseToken tok = none →
        processTokens m (pre ++ tok :: post) = processTokens m (pre ++ post)) ∧
      parseLine ("29:120.5;bad-token;31:0".toList) = [(29, 241 / 2), (31, 0)] := by
  constructor
  · intro pre post tok m htok
    simp only [processTokens, List.foldl_append, List.foldl_cons, htok]
  · simp [parseLine, processTokens, splitOnChar, parseToken, parseIntJS, parseFloatJS,
      takeDigits, digitVal, stripSign, natOfDigits, mapInsert, String.toList]
    norm_num

/-- Witness for C6: the skip clause applied at a concrete bad token, with the
concrete-map clause evaluated. -/
theorem parser_skips_bad_tokens_witness :
    processTokens [] (["29:1".toList] ++ "bad-token".toList :: ["31:0".toList]) =
      processTokens [] (["29:1".toList] ++ ["31:0".toList]) :=
  parser_skips_bad_tokens.1 ["29:1".toList] ["31:0".toList] "bad-token".toList []
    (by simp [parseToken, splitOnChar, String.toList])

/-! ### Coefficient solver

Source (`solveLinearSystem`, part_003 lines 182–215): Gaussian elimination
with partial pivoting on a 4×4 system, over copies `A`/`b` of the arguments,
throwing `"Matrix is singular or nearly singular"` when a post-swap pivot has
magnitude below `1e-12`, then back-substitution.  Arrays are modelled as lists
with JavaScript-style reads (`getD`, out-of-range reads give the default) and
in-place writes (`set`). -/

inductive SolveErr
  | singular
deriving DecidableEq

def eps : ℚ := 1 / 10 ^ 12

def vget (v : List ℚ) (i : ℕ) : ℚ := v.getD i 0

def mget (A : List (List ℚ)) (i j : ℕ) : ℚ := (A.getD i []).getD j 0

def vset (v : List ℚ) (i : ℕ) (x : ℚ) : List ℚ := v.set i x

def mset (A : List (List ℚ)) (i j : ℕ) (x : ℚ) : List (List ℚ) :=
  A.set i ((A.getD i []).set j x)

/-- `[A[i], A[maxRow]] = [A[maxRow], A[i]]`. -/
def listSwap {α : Type} [Inhabited α] (v : List α) (i j : ℕ) : List α :=
  (v.set i (v.getD j default)).set j (v.getD i default)

/-- The `maxRow` scan: start from `i`, move to `k` whenever `|A[k][i]|` is
strictly larger than the current best. -/
def findPivotRow (A : List (List ℚ)) (i : ℕ) : ℕ :=
  (List.range' (i + 1) (3 - i)).foldl
    (fun maxRow k => if |mget A k i| > |mget A maxRow i| then k else maxRow) i

/-- The row-elimination loops below pivot `i`
(`for k = i+1..3 { factor; for j = i..3 {...}; b[k] -= factor*b[i] }`). -/
def elimBelow (st : List (List ℚ) × List ℚ) (i : ℕ) : List (List ℚ) × List ℚ :=
  (List.range' (i + 1) (3 - i)).foldl (fun st2 k =>
    let factor := mget st2.1 k i / mget st2.1 i i
    let A3 := (List.range' i (4 - i)).foldl
      (fun acc j => mset acc k j (mget acc k j - factor * mget st2.1 i j)) st2.1
    (A3, vset st2.2 k (vget st2.2 k - factor * vget st2.2 i))) st

/-- One iteration of the outer elimination loop: pivot search, row swap,
singularity check, elimination below the pivot. -/
def elimStep (st : List (List ℚ) × List ℚ) (i : ℕ) :
    Except SolveErr (List (List ℚ) × List ℚ) :=
  let m := findPivotRow st.1 i
  let A1 := listSwap st.1 i m
  let b1 := listSwap st.2 i m
  if |mget A1 i i| < eps then .error .singular
  else .ok (elimBelow (A1, b1) i)

/-- State of the working copies after the first `n` outer iterations. -/
def gaussStages (X : List (List ℚ)) (Y : List ℚ) : ℕ → Except SolveErr (List (List ℚ) × List ℚ)
  | 0 => .ok (X, Y)
  | n + 1 => (gaussStages X Y n).bind fun st => elimStep st n

/-- Back substitution (`for i = 3..0 { sum; x[i] = (b[i]-sum)/A[i][i] }`). -/
def backSub (A : List (List ℚ)) (b : List ℚ) : List ℚ :=
  [3, 2, 1, 0].foldl (fun x i =>
    let sum := (List.range' (i + 1) (3 - i)).foldl (fun s j => s + mget A i j * vget x j) 0
    vset x i ((vget b i - sum) / mget A i i)) (List.replicate 4 0)

def solveLinearSystem (X : List (List ℚ)) (Y : List ℚ) : Except SolveErr (List ℚ) :=
  (gaussStages X Y 4).map fun st => backSub st.1 st.2

def exceptIsError {ε α : Type} : Except ε α → Bool
  | .error _ => true
  | .ok _ => false

/-- "The pivot after swapping at outer step `i` has magnitude below 1e-12". -/
def smallPivotAt (X : List (List ℚ)) (Y : List ℚ) (i : ℕ) : Prop :=
  ∃ st : List (List ℚ) × List ℚ, gaussStages X Y i = .ok st ∧
    |mget (listSwap st.1 i (findPivotRow st.1 i)) i i| < eps

/-! Generic helper lemmas. -/

theorem getD_set_self {α : Type} (l : List α) (i : ℕ) (a d : α) (h : i < l.length) :
    (l.set i a).getD i d = a := by
  induction l generalizing i with
  | nil => simp at h
  | cons x xs ih =>
    cases i with
    | zero => simp [List.set]
    | succ n =>
      simp only [List.set, List.getD_cons_succ]
      exact ih n (by simpa using h)

theorem getD_set_ne {α : Type} (l : List α) (i j : ℕ) (a d : α) (h : i ≠ j) :
    (l.set i a).getD j d = l.getD j d := by
  induction l generalizing i j with
  | nil => simp [List.set]
  | cons x xs ih =>
    cases i with
    | zero =>
      cases j with
      | zero => exact absurd rfl h
      | succ m => simp [List.set]
    | succ n =>
      cases j with
      | zero => simp [List.set]
      | succ m =>
        simp only [List.set, List.getD_cons_succ]
        exact ih n m (fun hnm => h (by rw [hnm]))

theorem pivotScan_mem (f : ℕ → ℚ) (l : List ℕ) (a : ℕ) :
    l.foldl (fun m k => if |f k| > |f m| then k else m) a ∈ a :: l := by
  induction l generalizing a with
  | nil => simp
  | cons k l ih =>
    simp only [List.foldl_cons]
    by_cases hk : |f k| > |f a|
    · rw [if_pos hk]
      rcases List.mem_cons.mp (ih k) with h | h
      · rw [h]; exact List.mem_cons_of_mem _ (List.mem_cons_self _ _)
      · exact List.mem_cons_of_mem _ (List.mem_cons_of_mem _ h)
    · rw [if_neg hk]
      rcases List.mem_cons.mp (ih a) with h | h
      · rw [h]; exact List.mem_cons_self _ _
      · exact List.mem_cons_of_mem _ (List.mem_cons_of_mem _ h)

theorem pivotScan_ge (f : ℕ → ℚ) (l : List ℕ) (a : ℕ) :
    ∀ j ∈ a :: l, |f j| ≤ |f (l.foldl (fun m k => if |f k| > |f m| then k else m) a)| := by
  induction l generalizing a with
  | nil =>
    intro j hj
    rcases List.mem_cons.mp hj with h | h
    · subst h; simp
    · simp at h
  | cons k l ih =>
    intro j hj
    simp only [List.foldl_cons]
    have step_ge_a : |f a| ≤ |f (if |f k| > |f a| then k else a)| := by
      by_cases hk : |f k| > |f a|
      · rw [if_pos hk]; exact le_of_lt hk
      · rw [if_neg hk]
    have step_ge_k : |f k| ≤ |f (if |f k| > |f a| then k else a)| := by
      by_cases hk : |f k| > |f a|
      · rw [if_pos hk]
      · rw [if_neg hk]; exact le_of_not_lt hk
    have tail := ih (if |f k| > |f a| then k else a)
    rcases List.mem_cons.mp hj with h | h
    · subst h
      exact le_trans step_ge_a
        (tail _ (List.mem_cons_self _ _))
    · rcases List.mem_cons.mp h with h | h
      · subst h
        exact le_trans step_ge_k (tail _ (List.mem_cons_self _ _))
      · exact tail j (List.mem_cons_of_mem _ h)

theorem findPivotRow_le_three (A : List (List ℚ)) (i : ℕ) (hi : i ≤ 3) :
    findPivotRow A i ≤ 3 := by
  have h := pivotScan_mem (fun k => mget A k i) (List.range' (i + 1) (3 - i)) i
  rcases List.mem_cons.mp h with h | h
  · rw [findPivotRow, h]; exact hi
  · have := List.mem_range'_1.mp h
    rw [findPivotRow]
    omega

theorem findPivotRow_ge (A : List (List ℚ)) (i : ℕ) :
    i ≤ findPivotRow A i := by
  have h := pivotScan_mem (fun k => mget A k i) (List.range' (i + 1) (3 - i)) i
  rcases List.mem_cons.mp h with h | h
  · rw [findPivotRow, h]
  · have := List.mem_range'_1.mp h
    rw [findPivotRow]
    omega

theorem findPivotRow_max (A : List (List ℚ)) (i k : ℕ) (hik : i ≤ k) (hk : k < 4) :
    |mget A k i| ≤ |mget A (findPivotRow A i) i| := by
  have hmem : k ∈ i :: List.range' (i + 1) (3 - i) := by
    rcases Nat.eq_or_lt_of_le hik with h | h
    · exact h ▸ List.mem_cons_self _ _
    · exact List.mem_cons_of_mem _ (List.mem_range'_1.mpr (by omega))
  exact pivotScan_ge (fun k => mget A k i) (List.range' (i + 1) (3 - i)) i k hmem

/-- After the swap, position `(i,i)` holds the scanned maximum. -/
theorem swap_pivot_value (A : List (List ℚ)) (i m : ℕ) (hA : A.length = 4)
    (hi : i < 4) (hm : m < 4) : mget (listSwap A i m) i i = mget A m i := by
  by_cases him : i = m
  · subst him
    rw [mget, listSwap]
    rw [getD_set_self _ i (A.getD i default) [] (by simpa [hA] using hi)]
    rfl
  · rw [mget, listSwap]
    rw [getD_set_ne _ m i _ [] (fun h => him h.symm),
      getD_set_self _ i (A.getD m default) [] (by simpa [hA] using hi)]
    rfl

theorem elimStep_error_iff (st : List (List ℚ) × List ℚ) (i : ℕ) :
    exceptIsError (elimStep st i) = true ↔
      |mget (listSwap st.1 i (findPivotRow st.1 i)) i i| < eps := by
  rw [elimStep]
  by_cases h : |mget (listSwap st.1 i (findPivotRow st.1 i)) i i| < eps
  · simp [h, exceptIsError]
  · simp [h, exceptIsError]

theorem gaussStages_error_mono (X : List (List ℚ)) (Y : List ℚ) (n : ℕ)
    (h : exceptIsError (gaussStages X Y n) = true) :
    exceptIsError (gaussStages X Y (n + 1)) = true := by
  rw [gaussStages]
  rcases hs : gaussStages X Y n with e | st
  · simp [Except.bind, exceptIsError]
  · rw [hs] at h
    simp [exceptIsError] at h

theorem gaussStages_error_iff (X : List (List ℚ)) (Y : List ℚ) :
    ∀ n, exceptIsError (gaussStages X Y n) = true ↔ ∃ i < n, smallPivotAt X Y i := by
  intro n
  induction n with
  | zero => simp [gaussStages, exceptIsError]
  | succ n ih =>
    constructor
    · intro h
      rw [gaussStages] at h
      rcases hs : gaussStages X Y n with e | st
      · rcases ih.mp (by rw [hs]; rfl) with ⟨i, hi, hsp⟩
        exact ⟨i, Nat.lt_succ_of_lt hi, hsp⟩
      · rw [hs] at h
        simp only [Except.bind] at h
        refine ⟨n, Nat.lt_succ_self n, st, hs, ?_⟩
        exact (elimStep_error_iff st n).mp h
    · rintro ⟨i, hi, hsp⟩
      rcases Nat.lt_succ_iff_lt_or_eq.mp hi with hi | hi
      · -- a small pivot strictly before stage n already derails stage n
        have h : exceptIsError (gaussStages X Y n) = true := ih.mpr ⟨i, hi, hsp⟩
        exact gaussStages_error_mono X Y n h
      · subst hi
        rcases hsp with ⟨st, hs, hlt⟩
        rw [gaussStages, hs]
        simp only [Except.bind]
        exact (elimStep_error_iff st i).mpr hlt

/-! ### Data model

`ThermistorData`, `CalibrationLogEntry` and the calibration coefficients from
part_003.  A JavaScript number that the code can set to `NaN` is modelled as an
`SVal`; `NaN` propagates through arithmetic and makes every `>` comparison
false, as in JavaScript. -/

inductive SVal
  | nan
  | num (q : ℚ)
deriving DecidableEq

def SVal.gtZero : SVal → Bool
  | .num q => decide (0 < q)
  | .nan => false

def SVal.toQ : SVal → ℚ
  | .num q => q
  | .nan => 0

def SVal.add : SVal → SVal → SVal
  | .num a, .num b => .num (a + b)
  | _, _ => .nan

def SVal.divNat : SVal → ℕ → SVal
  | .num a, n => .num (a / (n : ℚ))
  | .nan, _ => .nan

structure Coeffs where
  A : ℚ
  B : ℚ
  C : ℚ
  D : ℚ
deriving DecidableEq

structure LogEntry where
  calibrationNumber : ℕ
  time : ℕ
  measuredTemperature : ℚ
  measuredResistanceT1 : SVal
  measuredResistanceT2 : SVal
  measuredResistanceT3 : SVal
  measuredResistanceT4 : SVal
deriving DecidableEq

structure Therm where
  id : ℕ
  name : String
  resistance : SVal
  temperature : SVal
  color : String
  active : Bool
deriving DecidableEq

/-! ### Coefficient fit (`computeCoeffs`, part_003 lines 219–251) -/

/-- The per-channel raw value of a log entry
(`channel === 29 → measuredResistanceT1`, …, other channels leave `r = 0`). -/
def channelRaw (channel : ℤ) (log : LogEntry) : SVal :=
  if channel = 29 then log.measuredResistanceT1
  else if channel = 30 then log.measuredResistanceT2
  else if channel = 31 then log.measuredResistanceT3
  else if channel = 32 then log.measuredResistanceT4
  else .num 0

/-- The `calibrationLog.forEach` loop: push `(r, T + 273.15)` for each entry
whose raw value for the channel is `> 0` (false for `NaN`). -/
def realPoints (channel : ℤ) (log : List LogEntry) : List (ℚ × ℚ) :=
  log.foldl (fun pts e =>
    match channelRaw channel e with
    | .num r => if 0 < r then pts ++ [(r, e.measuredTemperature + 27315 / 100)] else pts
    | .nan => pts) []

/-- The built-in standard reference table
(`standard_resistances` / `standard_temperatures`, in Kelvin). -/
def standardPoints : List (ℚ × ℚ) :=
  [(30173 / 10, 60 + 27315 / 100), (12651 / 10, 90 + 27315 / 100),
   (9743 / 10, 100 + 27315 / 100), (5338 / 10, 125 + 27315 / 100)]

/-- JavaScript `points[i] = v`: overwrite in range, extend by one at the end
(the only out-of-range index the default-substitution loop ever uses). -/
def assignIdx {α : Type} (pts : List α) (i : ℕ) (v : α) : List α :=
  if i < pts.length then pts.set i v else pts ++ [v]

/-- Point selection: with fewer than 4 extracted points run the
`points[i] = standard…` loop, otherwise `points.splice(0, points.length - 4)`
keeps the last 4. -/
def selectPoints (channel : ℤ) (log : List LogEntry) : List (ℚ × ℚ) :=
  if (realPoints channel log).length < 4 then
    (List.range 4).foldl (fun pts i => assignIdx pts i (standardPoints.getD i (0, 0)))
      (realPoints channel log)
  else
    (realPoints channel log).drop ((realPoints channel log).length - 4)

/-- Design-matrix rows `[1, lnR, lnR², lnR³]`. -/
def designMatrix (ln : ℚ → ℚ) (pts : List (ℚ × ℚ)) : List (List ℚ) :=
  pts.map (fun p =>
    let lnR := ln p.1
    [1, lnR, lnR * lnR, lnR * lnR * lnR])

/-- Right-hand side `1 / T_K`. -/
def designRhs (pts : List (ℚ × ℚ)) : List ℚ := pts.map (fun p => 1 / p.2)

/-- `computeCoeffs(channel, calibrationLog)`: select points, build the system,
solve; a solver exception propagates to the caller. -/
def computeCoeffs (ln : ℚ → ℚ) (channel : ℤ) (log : List LogEntry) : Except SolveErr Coeffs :=
  (solveLinearSystem (designMatrix ln (selectPoints channel log))
    (designRhs (selectPoints channel log))).map
    fun xs => ⟨vget xs 0, vget xs 1, vget xs 2, vget xs 3⟩

/-! ### Temperature conversion and channel-store update -/

/-- `tempK = 1 / (A + B·lnR + C·lnR² + D·lnR³); tempC = tempK - 273.15`. -/
def convertTemp (ln : ℚ → ℚ) (c : Coeffs) (r : ℚ) : ℚ :=
  let lnR := ln r
  1 / (c.A + c.B * lnR + c.C * lnR ^ 2 + c.D * lnR ^ 3) - 27315 / 100

/-- Per-thermistor body of `setThermistors` in part_003 `updateSensorData`
(lines 376–397): coefficients are recomputed on the fly from the calibration
log, and the temperature is computed from the NEWLY parsed raw value; an
absent channel stores the `NaN` sentinels.  A solver exception aborts the
whole update. -/
def updateThermRef (ln : ℚ → ℚ) (log : List LogEntry) (m : List (ℤ × ℚ)) (t : Therm) :
    Except SolveErr Therm :=
  if t.active = false then .ok t
  else
    match mapLookup m ((t.id : ℤ) + 28) with
    | some resistance =>
      (computeCoeffs ln ((t.id : ℤ) + 28) log).map fun coeff =>
        let tempC : ℚ := if 0 < resistance then convertTemp ln coeff resistance else 0
        { t with resistance := .num resistance, temperature := .num tempC }
    | none => .ok { t with resistance := .nan, temperature := .nan }

/-- Per-thermistor body of `setThermistors` in the
`src/pages/CalibrationPage.tsx` variant (lines 217–238): coefficients come
from the stored `calibrationCoeffs` record, and the guard and `Math.log`
argument both read `t.resistance` — the PREVIOUS stored raw value — even
though the new `resistance` is stored. -/
def updateThermVariant (ln : ℚ → ℚ) (coeffsMap : ℤ → Option Coeffs) (m : List (ℤ × ℚ))
    (t : Therm) : Therm :=
  if t.active = false then t
  else
    match mapLookup m ((t.id : ℤ) + 28) with
    | some resistance =>
      let tempC : ℚ :=
        match coeffsMap ((t.id : ℤ) + 28), t.resistance with
        | some coeff, .num rOld => if 0 < rOld then convertTemp ln coeff rOld else 0
        | _, _ => 0
      { t with resistance := .num resistance, temperature := .num tempC }
    | none => { t with resistance := .nan, temperature := .nan }

/-- Per-thermistor body of the post-calibration refit (part_003 lines
622–635): recompute coefficients from the log and the temperature from the
STORED resistance. -/
def refitTherm (ln : ℚ → ℚ) (log : List LogEntry) (t : Therm) : Except SolveErr Therm :=
  if t.active = false then .ok t
  else
    (computeCoeffs ln ((t.id : ℤ) + 28) log).map fun coeff =>
      let tempC : ℚ :=
        match t.resistance with
        | .num r => if 0 < r then convertTemp ln coeff r else 0
        | .nan => 0
      { t with temperature := .num tempC }

def refitThermistors (ln : ℚ → ℚ) (log : List LogEntry) :
    List Therm → Except SolveErr (List Therm)
  | [] => .ok []
  | t :: ts =>
    (refitTherm ln log t).bind fun t2 =>
      (refitThermistors ln log ts).map fun ts2 => t2 :: ts2

/-- A throw inside the `setThermistors` updater aborts the whole state update:
on a solver error the previous thermistor array is kept. -/
def applyRefit (ln : ℚ → ℚ) (log : List LogEntry) (ts : List Therm) : List Therm :=
  match refitThermistors ln log ts with
  | .ok ts2 => ts2
  | .error _ => ts

/-! ### C1: point-selection policy -/

theorem realPoints_eq_filterMap (channel : ℤ) (log : List LogEntry) :
    realPoints channel log =
      (log.filter fun e => (channelRaw channel e).gtZero).map
        (fun e => ((channelRaw channel e).toQ, e.measuredTemperature + 27315 / 100)) := by
  rw [realPoints]
  suffices h : ∀ acc : List (ℚ × ℚ),
      log.foldl (fun pts e =>
        match channelRaw channel e with
        | .num r => if 0 < r then pts ++ [(r, e.measuredTemperature + 27315 / 100)] else pts
        | .nan => pts) acc =
      acc ++ (log.filter fun e => (channelRaw channel e).gtZero).map
        (fun e => ((channelRaw channel e).toQ, e.measuredTemperature + 27315 / 100)) by
    simpa using h []
  induction log with
  | nil => intro acc; simp
  | cons e log ih =>
    intro acc
    simp only [List.foldl_cons, List.filter_cons]
    rcases hr : channelRaw channel e with _ | r
    · simp [SVal.gtZero, ih]
    · by_cases hpos : 0 < r
      · simp [SVal.gtZero, hpos, ih, SVal.toQ, hr]
      · simp [SVal.gtZero, hpos, ih]

theorem selectPoints_default (channel : ℤ) (log : List LogEntry)
    (h : (realPoints channel log).length < 4) :
    selectPoints channel log = standardPoints := by
  rw [selectPoints, if_pos h]
  rw [show List.range 4 = [0, 1, 2, 3] from by decide]
  rcases hpts : realPoints channel log with _ | ⟨a, _ | ⟨b, _ | ⟨c, _ | ⟨d, rest⟩⟩⟩⟩
  · simp [assignIdx, standardPoints]
  · simp [assignIdx, standardPoints]
  · simp [assignIdx, standardPoints]
  · simp [assignIdx, standardPoints]
  · rw [hpts] at h
    simp at h
    omega

theorem selectPoints_recent (channel : ℤ) (log : List LogEntry)
    (h : 4 ≤ (realPoints channel log).length) :
    selectPoints channel log =
      (realPoints channel log).drop ((realPoints channel log).length - 4) := by
  rw [selectPoints, if_neg (by omega)]

/-- C1 (amended: "nonzero" must read "strictly positive"): the fit's
point-selection takes the entries whose raw value for the channel is `> 0`,
converted to Kelvin; with fewer than 4 of them it uses exactly the 4 built-in
standard reference pairs, otherwise exactly the 4 most recent such entries —
never a mixture. -/
theorem coeffs_point_selection (channel : ℤ) (log : List LogEntry) :
    (((log.filter fun e => (channelRaw channel e).gtZero).length < 4 →
        selectPoints channel log = standardPoints) ∧
      (4 ≤ (log.filter fun e => (channelRaw channel e).gtZero).length →
        selectPoints channel log =
          ((log.filter fun e => (channelRaw channel e).gtZero).map
            (fun e => ((channelRaw channel e).toQ, e.measuredTemperature + 27315 / 100))).drop
            ((log.filter fun e => (channelRaw channel e).gtZero).length - 4) ∧
          (selectPoints channel log).length = 4)) := by
  have hlen : (realPoints channel log).length =
      (log.filter fun e => (channelRaw channel e).gtZero).length := by
    rw [realPoints_eq_filterMap, List.length_map]
  constructor
  · intro h
    exact selectPoints_default channel log (by rw [hlen]; exact h)
  · intro h
    have h4 : 4 ≤ (realPoints channel log).length := by rw [hlen]; exact h
    constructor
    · rw [selectPoints_recent channel log h4, realPoints_eq_filterMap]
      rw [List.length_map]
    · rw [selectPoints_recent channel log h4, List.length_drop]
      omega

/-- Witness for C1's amended theorem: the empty log has no positive points, so
selection returns exactly the standard table. -/
theorem coeffs_point_selection_witness :
    (([] : List LogEntry).filter fun e => (channelRaw 29 e).gtZero).length < 4 ∧
      selectPoints 29 [] = standardPoints :=
  ⟨by decide, (coeffs_point_selection 29 []).1 (by decide)⟩

/-- A calibration log with four entries whose channel-29 raw value is `-1`:
every entry has a NONZERO raw value, yet the code's `r > 0` test discards all
of them. -/
def exLogNeg : List LogEntry :=
  [⟨1, 0, 25, .num (-1), .num 0, .num 0, .num 0⟩,
   ⟨2, 1, 25, .num (-1), .num 0, .num 0, .num 0⟩,
   ⟨3, 2, 25, .num (-1), .num 0, .num 0, .num 0⟩,
   ⟨4, 3, 25, .num (-1), .num 0, .num 0, .num 0⟩]

/-- Counterexample to C1 as stated: `exLogNeg` has 4 entries with a nonzero
raw value for channel 29, but the selection is the standard table, not the
4 most recent nonzero entries (converted to Kelvin). -/
theorem coeffs_point_selection_claim_false :
    ((exLogNeg.filter fun e => channelRaw 29 e ≠ SVal.num 0).length = 4) ∧
      selectPoints 29 exLogNeg ≠
        ((exLogNeg.filter fun e => channelRaw 29 e ≠ SVal.num 0).map
          (fun e => ((channelRaw 29 e).toQ, e.measuredTemperature + 27315 / 100))) := by
  constructor
  · simp only [exLogNeg, channelRaw]
    norm_num
  · have hsel : selectPoints 29 exLogNeg = standardPoints := by
      apply selectPoints_default
      simp only [realPoints, exLogNeg, channelRaw, List.foldl_cons, List.foldl_nil]
      norm_num
    rw [hsel]
    intro hcontra
    have h0 := congrArg (fun l => (l.getD 0 (0, 0)).1) hcontra
    simp only [exLogNeg, channelRaw, standardPoints, SVal.toQ] at h0
    norm_num at h0

/-! ### Unfolding lemmas and concrete evaluation helpers for the solver -/

theorem gaussStages_succ (X : List (List ℚ)) (Y : List ℚ) (n : ℕ) :
    gaussStages X Y (n + 1) = (gaussStages X Y n).bind fun st => elimStep st n := rfl

theorem except_bind_ok {e a b : Type} (x : a) (f : a → Except e b) :
    Except.bind (Except.ok x) f = f x := rfl

theorem elimStep_eq (st : List (List ℚ) × List ℚ) (i : ℕ) :
    elimStep st i =
      if |mget (listSwap st.1 i (findPivotRow st.1 i)) i i| < eps then .error .singular
      else .ok (elimBelow (listSwap st.1 i (findPivotRow st.1 i),
        listSwap st.2 i (findPivotRow st.1 i)) i) := rfl

/-- `Math.log` instantiated as the identity, a legitimate instance of the
abstract logarithm parameter for concrete runs. -/
def idQ : ℚ → ℚ := fun q => q

/-- `Math.log` instantiated as the constant zero. -/
def lnZ : ℚ → ℚ := fun _ => 0

/-- A calibration log with four entries whose channel-29 raw values are
1, 2, 3, 4 and whose reference temperature in Kelvin is exactly 1. -/
def exLog : List LogEntry :=
  [⟨1, 0, -27215 / 100, .num 1, .num 0, .num 0, .num 0⟩,
   ⟨2, 1, -27215 / 100, .num 2, .num 0, .num 0, .num 0⟩,
   ⟨3, 2, -27215 / 100, .num 3, .num 0, .num 0, .num 0⟩,
   ⟨4, 3, -27215 / 100, .num 4, .num 0, .num 0, .num 0⟩]

def exCoeffs : Coeffs := ⟨1, 0, 0, 0⟩

def exA : List (List ℚ) := [[1, 1, 1, 1], [1, 2, 4, 8], [1, 3, 9, 27], [1, 4, 16, 64]]

theorem exLog_points : selectPoints 29 exLog = [(1, 1), (2, 1), (3, 1), (4, 1)] := by
  have hreal : realPoints 29 exLog = [(1, 1), (2, 1), (3, 1), (4, 1)] := by
    rw [realPoints]
    norm_num [exLog, channelRaw]
  rw [selectPoints, hreal]
  norm_num

set_option maxHeartbeats 3000000 in
theorem exA_stages : gaussStages exA [1, 1, 1, 1] 4 = Except.ok
    ([[1, 1, 1, 1], [0, 3, 15, 63], [0, 0, -2, -16], [0, 0, 0, 2]], [1, 0, 0, 0]) := by
  have hp0 : findPivotRow exA 0 = 0 := by
    rw [findPivotRow]
    norm_num [exA, mget, show List.range' 1 3 = [1, 2, 3] from rfl]
  have h1 : gaussStages exA [1, 1, 1, 1] (0 + 1) =
      Except.ok ([[1, 1, 1, 1], [0, 1, 3, 7], [0, 2, 8, 26], [0, 3, 15, 63]],
        ([1, 0, 0, 0] : List ℚ)) := by
    rw [gaussStages_succ]
    simp only [show gaussStages exA [1, 1, 1, 1] 0 = Except.ok (exA, [1, 1, 1, 1]) from rfl,
      except_bind_ok]
    rw [elimStep_eq]
    simp only [hp0]
    rw [if_neg (by norm_num [exA, listSwap, mget, eps])]
    norm_num [elimBelow, exA, listSwap, mget, vget, mset, vset,
      show List.range' 1 3 = [1, 2, 3] from rfl, show List.range' 0 4 = [0, 1, 2, 3] from rfl]
  have hp1 : findPivotRow [[1, 1, 1, 1], [0, 1, 3, 7], [0, 2, 8, 26], [0, 3, 15, 63]] 1 = 3 := by
    rw [findPivotRow]
    norm_num [mget, show List.range' 2 2 = [2, 3] from rfl]
  have h2 : gaussStages exA [1, 1, 1, 1] (1 + 1) =
      Except.ok ([[1, 1, 1, 1], [0, 3, 15, 63], [0, 0, -2, -16], [0, 0, -2, -14]],
        ([1, 0, 0, 0] : List ℚ)) := by
    rw [gaussStages_succ, h1]
    simp only [except_bind_ok]
    rw [elimStep_eq]
    simp only [hp1]
    rw [if_neg (by norm_num [listSwap, mget, eps])]
    norm_num [elimBelow, listSwap, mget, vget, mset, vset,
      show List.range' 2 2 = [2, 3] from rfl, show List.range' 1 3 = [1, 2, 3] from rfl]
  have hp2 : findPivotRow [[1, 1, 1, 1], [0, 3, 15, 63], [0, 0, -2, -16], [0, 0, -2, -14]] 2
      = 2 := by
    rw [findPivotRow]
    norm_num [mget, show List.range' 3 1 = [3] from rfl]
  have h3 : gaussStages exA [1, 1, 1, 1] (2 + 1) =
      Except.ok ([[1, 1, 1, 1], [0, 3, 15, 63], [0, 0, -2, -16], [0, 0, 0, 2]],
        ([1, 0, 0, 0] : List ℚ)) := by
    rw [gaussStages_succ, h2]
    simp only [except_bind_ok]
    rw [elimStep_eq]
    simp only [hp2]
    rw [if_neg (by norm_num [listSwap, mget, eps])]
    norm_num [elimBelow, listSwap, mget, vget, mset, vset,
      show List.range' 3 1 = [3] from rfl, show List.range' 2 2 = [2, 3] from rfl]
  have hp3 : findPivotRow [[1, 1, 1, 1], [0, 3, 15, 63], [0, 0, -2, -16], [0, 0, 0, 2]] 3
      = 3 := by
    rw [findPivotRow]
    norm_num [mget, show List.range' 4 0 = [] from rfl]
  show gaussStages exA [1, 1, 1, 1] (3 + 1) = _
  rw [gaussStages_succ, h3]
  simp only [except_bind_ok]
  rw [elimStep_eq]
  simp only [hp3]
  rw [if_neg (by norm_num [listSwap, mget, eps])]
  norm_num [elimBelow, listSwap, mget, vget, mset, vset, show List.range' 4 0 = [] from rfl]

theorem exLog_coeffs : computeCoeffs idQ 29 exLog = Except.ok exCoeffs := by
  have hX : designMatrix idQ [(1, 1), (2, 1), (3, 1), (4, 1)] = exA := by
    norm_num [designMatrix, idQ, exA]
  have hY : designRhs [((1 : ℚ), (1 : ℚ)), (2, 1), (3, 1), (4, 1)] = [1, 1, 1, 1] := by
    norm_num [designRhs]
  have hback : backSub [[1, 1, 1, 1], [0, 3, 15, 63], [0, 0, -2, -16], [0, 0, 0, 2]]
      [1, 0, 0, 0] = [1, 0, 0, 0] := by
    norm_num [backSub, mget, vget, vset, List.replicate,
      show List.range' 4 0 = [] from rfl, show List.range' 3 1 = [3] from rfl,
      show List.range' 2 2 = [2, 3] from rfl, show List.range' 1 3 = [1, 2, 3] from rfl]
  rw [computeCoeffs, exLog_points, hX, hY, solveLinearSystem, exA_stages]
  simp only [Except.map]
  rw [hback]
  norm_num [exCoeffs, vget]

set_option maxHeartbeats 1000000 in
/-- With the constant-zero logarithm all four design rows are `[1,0,0,0]`,
and elimination fails at the second pivot. -/
theorem emptyLog_coeffs_lnZ : computeCoeffs lnZ 29 [] = Except.error SolveErr.singular := by
  rw [computeCoeffs]
  have hsel : selectPoints 29 ([] : List LogEntry) = standardPoints := by
    apply selectPoints_default
    norm_num [realPoints]
  have hX : designMatrix lnZ standardPoints = [[1, 0, 0, 0], [1, 0, 0, 0], [1, 0, 0, 0],
      [1, 0, 0, 0]] := by
    norm_num [designMatrix, lnZ, standardPoints]
  have hY : designRhs standardPoints = [100 / 33315, 100 / 36315, 100 / 37315,
      100 / 39815] := by
    norm_num [designRhs, standardPoints]
  rw [hsel, hX, hY, solveLinearSystem]
  have hp0 : findPivotRow [[1, 0, 0, 0], [1, 0, 0, 0], [1, 0, 0, 0], [1, 0, 0, 0]] 0 = 0 := by
    rw [findPivotRow]
    norm_num [mget, show List.range' 1 3 = [1, 2, 3] from rfl]
  have h1 : gaussStages [[1, 0, 0, 0], [1, 0, 0, 0], [1, 0, 0, 0], [1, 0, 0, 0]]
      [100 / 33315, 100 / 36315, 100 / 37315, 100 / 39815] (0 + 1) =
      Except.ok ([[1, 0, 0, 0], [0, 0, 0, 0], [0, 0, 0, 0], [0, 0, 0, 0]],
        ([100 / 33315, 100 / 36315 - 100 / 33315, 100 / 37315 - 100 / 33315,
          100 / 39815 - 100 / 33315] : List ℚ)) := by
    rw [gaussStages_succ]
    simp only [show gaussStages [[1, 0, 0, 0], [1, 0, 0, 0], [1, 0, 0, 0], [1, 0, 0, 0]]
      [100 / 33315, 100 / 36315, 100 / 37315, 100 / 39815] 0 =
      Except.ok ([[1, 0, 0, 0], [1, 0, 0, 0], [1, 0, 0, 0], [1, 0, 0, 0]],
        [100 / 33315, 100 / 36315, 100 / 37315, 100 / 39815]) from rfl, except_bind_ok]
    rw [elimStep_eq]
    simp only [hp0]
    rw [if_neg (by norm_num [listSwap, mget, eps])]
    norm_num [elimBelow, listSwap, mget, vget, mset, vset,
      show List.range' 1 3 = [1, 2, 3] from rfl, show List.range' 0 4 = [0, 1, 2, 3] from rfl]
  have hp1 : findPivotRow [[1, 0, 0, 0], [0, 0, 0, 0], [0, 0, 0, 0], [0, 0, 0, 0]] 1 = 1 := by
    rw [findPivotRow]
    norm_num [mget, show List.range' 2 2 = [2, 3] from rfl]
  have h2 : gaussStages [[1, 0, 0, 0], [1, 0, 0, 0], [1, 0, 0, 0], [1, 0, 0, 0]]
      [100 / 33315, 100 / 36315, 100 / 37315, 100 / 39815] (1 + 1) =
      Except.error SolveErr.singular := by
    rw [gaussStages_succ, h1]
    simp only [except_bind_ok]
    rw [elimStep_eq]
    simp only [hp1]
    rw [if_pos (by norm_num [listSwap, mget, eps])]
  have h3 : gaussStages [[1, 0, 0, 0], [1, 0, 0, 0], [1, 0, 0, 0], [1, 0, 0, 0]]
      [100 / 33315, 100 / 36315, 100 / 37315, 100 / 39815] 4 =
      Except.error SolveErr.singular := by
    show gaussStages _ _ (3 + 1) = _
    rw [gaussStages_succ, show (3 : ℕ) = 2 + 1 from rfl, gaussStages_succ, h2]
    rfl
  rw [h3]
  rfl

/-! ### C2: partial pivoting, singularity failure, no update on failure -/

/-- C2: the solve performs partial pivoting — after the swap, the pivot
position holds the entry of largest absolute value of the pivot column among
the remaining rows of the working matrix; it fails with the singular-matrix
error iff some post-swap pivot has magnitude below `1e-12`; and on such a
failure the thermistor update that would consume the coefficients is aborted,
leaving the previous state (hence the prior coefficients) unchanged. -/
theorem solver_pivoting_and_singularity (X : List (List ℚ)) (Y : List ℚ) :
    ((∀ A : List (List ℚ), ∀ i k : ℕ, A.length = 4 → i ≤ k → k < 4 →
        |mget A k i| ≤ |mget (listSwap A i (findPivotRow A i)) i i|) ∧
      (solveLinearSystem X Y = Except.error SolveErr.singular ↔
        ∃ i < 4, smallPivotAt X Y i) ∧
      ∀ (ln : ℚ → ℚ) (log : List LogEntry) (ts : List Therm),
        exceptIsError (refitThermistors ln log ts) = true → applyRefit ln log ts = ts) := by
  refine ⟨?_, ?_, ?_⟩
  · intro A i k hA hik hk
    have hi4 : i < 4 := lt_of_le_of_lt hik hk
    have hm3 := findPivotRow_le_three A i (by omega)
    rw [swap_pivot_value A i (findPivotRow A i) hA hi4 (by omega)]
    exact findPivotRow_max A i k hik hk
  · have herr : solveLinearSystem X Y = Except.error SolveErr.singular ↔
        exceptIsError (gaussStages X Y 4) = true := by
      rw [solveLinearSystem]
      rcases hs : gaussStages X Y 4 with e | st
      · cases e
        simp [Except.map, exceptIsError]
      · simp [Except.map, exceptIsError]
    rw [herr]
    exact gaussStages_error_iff X Y 4
  · intro ln log ts h
    rw [applyRefit]
    rcases hr : refitThermistors ln log ts with e | ts2
    · rfl
    · rw [hr] at h
      simp [exceptIsError] at h

def exTherm : Therm := ⟨1, "Thermistor 1", .num 0, .num 7, "#FF5733", true⟩

/-- Witness for C2: a concrete pivoting bound; the all-zero system fails as
singular (its first pivot is 0); and a refit that hits the singular solver
leaves the thermistor state unchanged. -/
theorem solver_pivoting_and_singularity_witness :
    (|mget exA 1 0| ≤ |mget (listSwap exA 0 (findPivotRow exA 0)) 0 0| ∧
      solveLinearSystem [[0, 0, 0, 0], [0, 0, 0, 0], [0, 0, 0, 0], [0, 0, 0, 0]]
        [0, 0, 0, 0] = Except.error SolveErr.singular) ∧
      applyRefit lnZ [] [exTherm] = [exTherm] := by
  have hrefit : exceptIsError (refitThermistors lnZ [] [exTherm]) = true := by
    rw [refitThermistors, refitTherm]
    rw [if_neg (by norm_num [exTherm])]
    rw [show ((exTherm.id : ℤ) + 28) = 29 from by norm_num [exTherm]]
    rw [emptyLog_coeffs_lnZ]
    rfl
  refine ⟨⟨?_, ?_⟩, ?_⟩
  · exact (solver_pivoting_and_singularity [] []).1 exA 0 1 (by norm_num [exA])
      (by norm_num) (by norm_num)
  · refine (solver_pivoting_and_singularity [[0, 0, 0, 0], [0, 0, 0, 0], [0, 0, 0, 0],
      [0, 0, 0, 0]] [0, 0, 0, 0]).2.1.mpr ⟨0, by norm_num, ([[0, 0, 0, 0], [0, 0, 0, 0],
      [0, 0, 0, 0], [0, 0, 0, 0]], [0, 0, 0, 0]), rfl, ?_⟩
    have hp : findPivotRow [[0, 0, 0, 0], [0, 0, 0, 0], [0, 0, 0, 0], [0, 0, 0, 0]] 0
        = 0 := by
      rw [findPivotRow]
      norm_num [mget, show List.range' 1 3 = [1, 2, 3] from rfl]
    rw [hp]
    norm_num [listSwap, mget, eps]
  · exact (solver_pivoting_and_singularity [] []).2.2 lnZ [] [exTherm] hrefit

/-! ### C10: the solve never mutates its argument arrays

Store-passing model of `solveLinearSystem`: the caller's arrays `X`, `Y` are
separate fields of the store; the first two statements of the source copy them
into `A`/`b` (`const A = X.map(row => row.slice()); const b = Y.slice();`) and
every subsequent write of the elimination loop targets `A`/`b` only.
Back-substitution writes only the fresh result array `x`. -/

structure SolveStore where
  X : List (List ℚ)
  Y : List ℚ
  A : List (List ℚ)
  b : List ℚ
deriving DecidableEq

/-- One outer iteration acting on the store (error sticks once raised). -/
def storeStep (s : SolveStore × Option SolveErr) (i : ℕ) : SolveStore × Option SolveErr :=
  match s.2 with
  | some _ => s
  | none =>
    match elimStep (s.1.A, s.1.b) i with
    | .ok p => ({ s.1 with A := p.1, b := p.2 }, none)
    | .error e => (s.1, some e)

/-- The whole elimination phase on the store, starting from the copies. -/
def runSolveStore (X : List (List ℚ)) (Y : List ℚ) : SolveStore × Option SolveErr :=
  (List.range 4).foldl storeStep ({ X := X, Y := Y, A := X, b := Y }, none)

theorem storeStep_preserves (s : SolveStore × Option SolveErr) (i : ℕ) :
    (storeStep s i).1.X = s.1.X ∧ (storeStep s i).1.Y = s.1.Y := by
  rw [storeStep]
  rcases s with ⟨st, e⟩
  rcases e with _ | e
  · rcases h : elimStep (st.A, st.b) i with e2 | p
    · exact ⟨rfl, rfl⟩
    · exact ⟨rfl, rfl⟩
  · exact ⟨rfl, rfl⟩

theorem foldl_storeStep_preserves (l : List ℕ) (s : SolveStore × Option SolveErr) :
    (l.foldl storeStep s).1.X = s.1.X ∧ (l.foldl storeStep s).1.Y = s.1.Y := by
  induction l generalizing s with
  | nil => exact ⟨rfl, rfl⟩
  | cons i l ih =>
    rw [List.foldl_cons]
    rcases ih (storeStep s i) with ⟨h1, h2⟩
    rcases storeStep_preserves s i with ⟨h3, h4⟩
    exact ⟨h1.trans h3, h2.trans h4⟩

theorem storeStep_none (st : SolveStore) (i : ℕ) :
    storeStep (st, none) i =
      match elimStep (st.A, st.b) i with
      | .ok p => ({ st with A := p.1, b := p.2 }, none)
      | .error e => (st, some e) := rfl

theorem storeStep_some (st : SolveStore) (e : SolveErr) (i : ℕ) :
    storeStep (st, some e) i = (st, some e) := rfl

theorem runSolveStore_agrees (X : List (List ℚ)) (Y : List ℚ) : ∀ n : ℕ,
    (∀ st, gaussStages X Y n = .ok st →
      (List.range n).foldl storeStep ({ X := X, Y := Y, A := X, b := Y }, none) =
        (⟨X, Y, st.1, st.2⟩, none)) ∧
    (∀ e, gaussStages X Y n = .error e →
      ((List.range n).foldl storeStep ({ X := X, Y := Y, A := X, b := Y }, none)).2 =
        some e) := by
  intro n
  induction n with
  | zero =>
    constructor
    · intro st hst
      rw [gaussStages] at hst
      cases hst
      rfl
    · intro e he
      rw [gaussStages] at he
      cases he
  | succ n ih =>
    have hrange : List.range (n + 1) = List.range n ++ [n] := by
      simpa using List.range_succ n
    constructor
    · intro st hst
      rw [gaussStages_succ] at hst
      rcases hs : gaussStages X Y n with e | st2
      · rw [hs] at hst
        simp [Except.bind] at hst
      · rcases st2 with ⟨A2, b2⟩
        rw [hs] at hst
        simp only [except_bind_ok] at hst
        rw [hrange, List.foldl_append, ih.1 (A2, b2) hs]
        rw [List.foldl_cons, List.foldl_nil]
        simp only [storeStep_none, hst]
    · intro e he
      rw [gaussStages_succ] at he
      rcases hs : gaussStages X Y n with e2 | st2
      · rw [hs] at he
        simp only [Except.bind] at he
        cases he
        rw [hrange, List.foldl_append, List.foldl_cons, List.foldl_nil]
        have h2 := ih.2 e2 hs
        rcases hsf : (List.range n).foldl storeStep
            ({ X := X, Y := Y, A := X, b := Y }, none) with ⟨stf, ef⟩
        rw [hsf] at h2
        simp only at h2
        rw [h2, storeStep_some]
      · rcases st2 with ⟨A2, b2⟩
        rw [hs] at he
        simp only [except_bind_ok] at he
        rw [hrange, List.foldl_append, ih.1 (A2, b2) hs, List.foldl_cons, List.foldl_nil]
        simp only [storeStep_none, he]

/-- C10: the linear-system solve never mutates its arguments — after the run,
whether it fails or succeeds, the caller's `X` and `Y` arrays hold exactly
their initial values, because elimination writes only the internal copies;
and the store run fails exactly when the functional solve does. -/
theorem solver_frame_no_mutation (X : List (List ℚ)) (Y : List ℚ) :
    (((runSolveStore X Y).1.X = X ∧ (runSolveStore X Y).1.Y = Y) ∧
      ((runSolveStore X Y).2 = none ↔ exceptIsError (gaussStages X Y 4) = false)) := by
  constructor
  · exact foldl_storeStep_preserves (List.range 4) ({ X := X, Y := Y, A := X, b := Y }, none)
  · rw [runSolveStore]
    rcases hs : gaussStages X Y 4 with e | st
    · rw [(runSolveStore_agrees X Y 4).2 e hs]
      simp [exceptIsError]
    · rw [(runSolveStore_agrees X Y 4).1 st hs]
      simp [exceptIsError]

/-! ### C3: conversion semantics and the absent-channel sentinel -/

/-- C3: for an active channel processed against a parsed map, with the
coefficient fit succeeding: a raw value `R ≤ 0` stores the sentinel output
(the fixed 0, not a formula-computed temperature); `R > 0` stores
`1/(A + B·lnR + C·lnR² + D·lnR³) - 273.15`; and a channel id absent from the
map stores the `NaN` sentinel instead of reusing the stale reading. -/
theorem conversion_and_sentinels (ln : ℚ → ℚ) (log : List LogEntry) (m : List (ℤ × ℚ))
    (t : Therm) (c : Coeffs) (r : ℚ) (hact : t.active = true) :
    ((mapLookup m ((t.id : ℤ) + 28) = some r →
        computeCoeffs ln ((t.id : ℤ) + 28) log = .ok c →
        ((r ≤ 0 → updateThermRef ln log m t =
            .ok { t with resistance := .num r, temperature := .num 0 }) ∧
          (0 < r → updateThermRef ln log m t =
            .ok { t with
              resistance := .num r,
              temperature := SVal.num (1 /
                (c.A + c.B * ln r + c.C * (ln r) ^ 2 + c.D * (ln r) ^ 3) -
                27315 / 100) }))) ∧
      (mapLookup m ((t.id : ℤ) + 28) = none → updateThermRef ln log m t =
        .ok { t with resistance := .nan, temperature := .nan })) := by
  constructor
  · intro hlk hc
    have hbase : updateThermRef ln log m t = Except.ok { t with
        resistance := .num r,
        temperature := SVal.num (if 0 < r then convertTemp ln c r else 0) } := by
      rw [updateThermRef, if_neg (by simp [hact])]
      simp only [hlk, hc, Except.map]
    constructor
    · intro hr
      rw [hbase, if_neg (not_lt.mpr hr)]
    · intro hr
      rw [hbase, if_pos hr, convertTemp]
  · intro hlk
    rw [updateThermRef, if_neg (by simp [hact])]
    simp only [hlk]

/-- Witness for C3: a concrete successful update of thermistor 1 (channel 29)
with new raw value 5 under the `exLog` fit. -/
theorem conversion_and_sentinels_witness :
    exTherm.active = true ∧
      mapLookup [((29 : ℤ), (5 : ℚ))] ((exTherm.id : ℤ) + 28) = some 5 ∧
      (0 : ℚ) < 5 ∧
      updateThermRef idQ exLog [((29 : ℤ), (5 : ℚ))] exTherm =
        Except.ok { exTherm with
          resistance := .num 5,
          temperature := SVal.num (1 /
            (exCoeffs.A + exCoeffs.B * idQ 5 + exCoeffs.C * (idQ 5) ^ 2 +
            exCoeffs.D * (idQ 5) ^ 3) - 27315 / 100) } := by
  have hid : ((exTherm.id : ℤ) + 28) = 29 := by norm_num [exTherm]
  have hlk : mapLookup [((29 : ℤ), (5 : ℚ))] ((exTherm.id : ℤ) + 28) = some 5 := by
    rw [hid]
    rfl
  have hc : computeCoeffs idQ ((exTherm.id : ℤ) + 28) exLog = .ok exCoeffs := by
    rw [hid]
    exact exLog_coeffs
  exact ⟨rfl, hlk, by norm_num,
    ((conversion_and_sentinels idQ exLog [((29 : ℤ), (5 : ℚ))] exTherm exCoeffs 5 rfl).1
      hlk hc).2 (by norm_num)⟩

/-! ### C4: the two `updateSensorData` variants are NOT equivalent -/

/-- The stored per-channel coefficients of the `CalibrationPage.tsx` variant,
instantiated so that channel 29 carries the same coefficients that the
reference variant computes from `exLog`. -/
def exCmap : ℤ → Option Coeffs := fun ch => if ch = 29 then some exCoeffs else none

/-- C4 (amended): the part_003 variant recomputes the temperature from the
newly parsed raw value, while the `src/pages/CalibrationPage.tsx` variant
recomputes it from the previously stored raw value (both store the new raw
value), so the two variants are not equivalent. -/
theorem update_variants_behavior (ln : ℚ → ℚ) (cmap : ℤ → Option Coeffs)
    (log : List LogEntry) (m : List (ℤ × ℚ)) (t : Therm) (r : ℚ) (c c2 : Coeffs)
    (hact : t.active = true) (hlk : mapLookup m ((t.id : ℤ) + 28) = some r) :
    ((computeCoeffs ln ((t.id : ℤ) + 28) log = .ok c →
        updateThermRef ln log m t = .ok { t with
          resistance := .num r,
          temperature := SVal.num (if 0 < r then convertTemp ln c r else 0) }) ∧
      (cmap ((t.id : ℤ) + 28) = some c2 →
        updateThermVariant ln cmap m t = { t with
          resistance := .num r,
          temperature := SVal.num (match t.resistance with
            | .num rOld => if 0 < rOld then convertTemp ln c2 rOld else 0
            | .nan => 0) })) := by
  constructor
  · intro hc
    rw [updateThermRef, if_neg (by simp [hact])]
    simp only [hlk, hc, Except.map]
  · intro hc2
    rw [updateThermVariant, if_neg (by simp [hact])]
    simp only [hlk, hc2]
    rcases ht : t.resistance with _ | rOld
    · simp [ht]
    · simp [ht]

/-- Witness for C4's amended theorem at the divergence input: same line, same
coefficients, same prior state, one result per variant. -/
theorem update_variants_behavior_witness :
    updateThermRef idQ exLog [((29 : ℤ), (5 : ℚ))] exTherm =
        Except.ok { exTherm with
          resistance := .num 5,
          temperature := SVal.num (if 0 < (5 : ℚ) then convertTemp idQ exCoeffs 5
            else 0) } ∧
      updateThermVariant idQ exCmap [((29 : ℤ), (5 : ℚ))] exTherm =
        { exTherm with
          resistance := .num 5,
          temperature := SVal.num (match exTherm.resistance with
            | .num rOld => if 0 < rOld then convertTemp idQ exCoeffs rOld else 0
            | .nan => 0) } := by
  have hid : ((exTherm.id : ℤ) + 28) = 29 := by norm_num [exTherm]
  have hlk : mapLookup [((29 : ℤ), (5 : ℚ))] ((exTherm.id : ℤ) + 28) = some 5 := by
    rw [hid]
    rfl
  have h := update_variants_behavior idQ exCmap exLog [((29 : ℤ), (5 : ℚ))] exTherm 5
    exCoeffs exCoeffs rfl hlk
  exact ⟨h.1 (by rw [hid]; exact exLog_coeffs), h.2 (by rw [hid]; rfl)⟩

/-- Counterexample to C4 as stated: same parsed line (`29:5`), same
coefficients, same prior state, but the reference variant computes the
temperature from the NEW raw value 5 while the `CalibrationPage.tsx` variant
computes it from the previously stored raw value 0 — the resulting channel
states differ. -/
theorem update_variants_not_equivalent :
    updateThermRef idQ exLog [((29 : ℤ), (5 : ℚ))] exTherm ≠
      Except.ok (updateThermVariant idQ exCmap [((29 : ℤ), (5 : ℚ))] exTherm) := by
  have hid : ((exTherm.id : ℤ) + 28) = 29 := by norm_num [exTherm]
  have hlk : mapLookup [((29 : ℤ), (5 : ℚ))] ((exTherm.id : ℤ) + 28) = some 5 := by
    rw [hid]
    rfl
  have hA : updateThermRef idQ exLog [((29 : ℤ), (5 : ℚ))] exTherm =
      Except.ok { exTherm with
        resistance := .num 5,
        temperature := SVal.num (if 0 < (5 : ℚ) then convertTemp idQ exCoeffs 5
          else 0) } := by
    rw [updateThermRef, if_neg (by simp [exTherm])]
    simp only [hlk, show computeCoeffs idQ ((exTherm.id : ℤ) + 28) exLog =
      Except.ok exCoeffs from by rw [hid]; exact exLog_coeffs, Except.map]
  have hB : updateThermVariant idQ exCmap [((29 : ℤ), (5 : ℚ))] exTherm =
      { exTherm with
        resistance := .num 5,
        temperature := SVal.num (match exTherm.resistance with
          | .num rOld => if 0 < rOld then convertTemp idQ exCoeffs rOld else 0
          | .nan => 0) } := by
    rw [updateThermVariant, if_neg (by simp [exTherm])]
    simp only [hlk, show exCmap ((exTherm.id : ℤ) + 28) = some exCoeffs from by
      rw [hid]; rfl]
    rcases ht : exTherm.resistance with _ | rOld
    · simp [ht]
    · simp [ht]
  rw [hA, hB]
  intro hcontra
  rw [Except.ok.injEq, Therm.mk.injEq] at hcontra
  have htemp := hcontra.2.2.2.1
  rw [show exTherm.resistance = SVal.num 0 from rfl] at htemp
  rw [show convertTemp idQ exCoeffs 5 = -27215 / 100 from by
    rw [convertTemp]; norm_num [idQ, exCoeffs]] at htemp
  norm_num at htemp

/-! ### C7: the averaging path (handleCalibrate, part_003 lines 577–639)

The periodic sampler adds `thermistorsRef.current[i].active ?
thermistorsRef.current[i].resistance : 0` to each per-channel sum and
increments `count` once per tick; at expiry the per-channel mean is
`count > 0 ? sum / count : 0` and the entry stores the mean for active
channels and 0 for inactive ones. -/

/-- Default thermistor used for JavaScript array indexing (the source array
always has exactly 4 entries). -/
def dT : Therm := ⟨0, "", .num 0, .num 0, "", false⟩

structure AvgAcc where
  sumT1 : SVal
  sumT2 : SVal
  sumT3 : SVal
  sumT4 : SVal
  count : ℕ
deriving DecidableEq

/-- `thermistorsRef.current[i].active ? …resistance : 0` at one tick. -/
def tickContrib (ts : List Therm) (i : ℕ) : SVal :=
  if (ts.getD i dT).active then (ts.getD i dT).resistance else .num 0

/-- One `setInterval` tick. -/
def sampleTick (acc : AvgAcc) (ts : List Therm) : AvgAcc :=
  ⟨acc.sumT1.add (tickContrib ts 0), acc.sumT2.add (tickContrib ts 1),
   acc.sumT3.add (tickContrib ts 2), acc.sumT4.add (tickContrib ts 3), acc.count + 1⟩

def accInit : AvgAcc := ⟨.num 0, .num 0, .num 0, .num 0, 0⟩

/-- The whole sampling window: one `sampleTick` per snapshot of the
thermistor array. -/
def runSampler (ticks : List (List Therm)) : AvgAcc := ticks.foldl sampleTick accInit

/-- `count > 0 ? sum / count : 0`. -/
def avgOf (sum : SVal) (count : ℕ) : SVal := if 0 < count then sum.divNat count else .num 0

/-- The committed `CalibrationLogEntry` of the averaging path. -/
def buildAvgEntry (acc : AvgAcc) (tsNow : List Therm) (calibNum : ℕ) (time : ℕ)
    (mt : ℚ) : LogEntry :=
  ⟨calibNum, time, mt,
   if (tsNow.getD 0 dT).active then avgOf acc.sumT1 acc.count else .num 0,
   if (tsNow.getD 1 dT).active then avgOf acc.sumT2 acc.count else .num 0,
   if (tsNow.getD 2 dT).active then avgOf acc.sumT3 acc.count else .num 0,
   if (tsNow.getD 3 dT).active then avgOf acc.sumT4 acc.count else .num 0⟩

theorem runSampler_fields (ticks : List (List Therm)) :
    ((runSampler ticks).count = ticks.length ∧
      (runSampler ticks).sumT1 =
        (ticks.map (fun ts => tickContrib ts 0)).foldl SVal.add (.num 0) ∧
      (runSampler ticks).sumT2 =
        (ticks.map (fun ts => tickContrib ts 1)).foldl SVal.add (.num 0) ∧
      (runSampler ticks).sumT3 =
        (ticks.map (fun ts => tickContrib ts 2)).foldl SVal.add (.num 0) ∧
      (runSampler ticks).sumT4 =
        (ticks.map (fun ts => tickContrib ts 3)).foldl SVal.add (.num 0)) := by
  rw [runSampler]
  suffices h : ∀ acc : AvgAcc,
      ((ticks.foldl sampleTick acc).count = acc.count + ticks.length ∧
        (ticks.foldl sampleTick acc).sumT1 =
          (ticks.map (fun ts => tickContrib ts 0)).foldl SVal.add acc.sumT1 ∧
        (ticks.foldl sampleTick acc).sumT2 =
          (ticks.map (fun ts => tickContrib ts 1)).foldl SVal.add acc.sumT2 ∧
        (ticks.foldl sampleTick acc).sumT3 =
          (ticks.map (fun ts => tickContrib ts 2)).foldl SVal.add acc.sumT3 ∧
        (ticks.foldl sampleTick acc).sumT4 =
          (ticks.map (fun ts => tickContrib ts 3)).foldl SVal.add acc.sumT4) by
    have h0 := h accInit
    simpa [accInit] using h0
  induction ticks with
  | nil => intro acc; simp
  | cons ts ticks ih =>
    intro acc
    simp only [List.foldl_cons, List.map_cons]
    have h := ih (sampleTick acc ts)
    refine ⟨?_, h.2.1, h.2.2.1, h.2.2.2.1, h.2.2.2.2⟩
    rw [h.1]
    simp [sampleTick]
    try omega

/-- The four concrete sampling snapshots with resistances 10, 20, 30, 40 on
the first (active) thermistor. -/
def exTick (v : ℚ) : List Therm := [⟨1, "Thermistor 1", .num v, .num 0, "#FF5733", true⟩,
  dT, dT, dT]

def exTicks : List (List Therm) := [exTick 10, exTick 20, exTick 30, exTick 40]

/-- C7: at commit, the per-channel value written to the log entry equals the
accumulated sample sum divided by the sample count for each active channel,
0 when the count is 0 and 0 for inactive channels; and for samples
`[10, 20, 30, 40]` the committed value is 25. -/
theorem averaging_commit_mean (ticks : List (List Therm)) (tsNow : List Therm)
    (n time : ℕ) (mt : ℚ) :
    (((buildAvgEntry (runSampler ticks) tsNow n time mt).measuredResistanceT1 =
        (if (tsNow.getD 0 dT).active then
          (if 0 < ticks.length then
            ((ticks.map (fun ts => tickContrib ts 0)).foldl SVal.add (.num 0)).divNat
              ticks.length
          else .num 0) else .num 0) ∧
      (buildAvgEntry (runSampler ticks) tsNow n time mt).measuredResistanceT2 =
        (if (tsNow.getD 1 dT).active then
          (if 0 < ticks.length then
            ((ticks.map (fun ts => tickContrib ts 1)).foldl SVal.add (.num 0)).divNat
              ticks.length
          else .num 0) else .num 0) ∧
      (buildAvgEntry (runSampler ticks) tsNow n time mt).measuredResistanceT3 =
        (if (tsNow.getD 2 dT).active then
          (if 0 < ticks.length then
            ((ticks.map (fun ts => tickContrib ts 2)).foldl SVal.add (.num 0)).divNat
              ticks.length
          else .num 0) else .num 0) ∧
      (buildAvgEntry (runSampler ticks) tsNow n time mt).measuredResistanceT4 =
        (if (tsNow.getD 3 dT).active then
          (if 0 < ticks.length then
            ((ticks.map (fun ts => tickContrib ts 3)).foldl SVal.add (.num 0)).divNat
              ticks.length
          else .num 0) else .num 0)) ∧
      (buildAvgEntry (runSampler exTicks) (exTick 0) 1 0 25).measuredResistanceT1 =
        .num 25) := by
  have hf := runSampler_fields ticks
  constructor
  · refine ⟨?_, ?_, ?_, ?_⟩ <;>
      simp only [buildAvgEntry, avgOf, hf.1, hf.2.1, hf.2.2.1, hf.2.2.2.1, hf.2.2.2.2]
  · have hsum : ((exTicks.map (fun ts => tickContrib ts 0)).foldl SVal.add
        (SVal.num 0)).divNat exTicks.length = SVal.num 25 := by
      norm_num [exTicks, exTick, tickContrib, dT, SVal.add, SVal.divNat]
    have hf2 := runSampler_fields exTicks
    simp only [buildAvgEntry, avgOf, hf2.1, hf2.2.1]
    rw [if_pos (by norm_num [exTick, dT]), if_pos (by norm_num [exTicks])]
    exact hsum

/-! ### C8: bounded ring buffers -/

/-- Telemetry-history push (part_003 lines 399–403):
`[...prev, newPoint]` then one `shift()` when the length exceeds 500. -/
def pushCapped {α : Type} (buf : List α) (x : α) : List α :=
  if 500 < (buf ++ [x]).length then (buf ++ [x]).tail else buf ++ [x]

/-- Marker push of the averaging path (part_003 lines 615–619):
`[...prev, ...newCalibrationPoints]` then ONE `shift()` when the length
exceeds 500. -/
def pushMarkersAvg {α : Type} (buf pts : List α) : List α :=
  if 500 < (buf ++ pts).length then (buf ++ pts).tail else buf ++ pts

/-- Marker push of the instant path (part_003 line 661): plain append with no
cap at all. -/
def pushMarkersInstant {α : Type} (buf pts : List α) : List α := buf ++ pts

theorem pushCapped_lastN (xs : List ℚ) :
    List.foldl pushCapped ([] : List ℚ) xs = xs.drop (xs.length - 500) := by
  induction xs using List.reverseRecOn with
  | nil => rfl
  | append_singleton xs x ih =>
    rw [List.foldl_append, List.foldl_cons, List.foldl_nil, ih]
    by_cases h : xs.length < 500
    · rw [show xs.length - 500 = 0 from by omega, List.drop_zero]
      rw [pushCapped, if_neg (by simp; omega)]
      rw [show (xs ++ [x]).length - 500 = 0 from by simp; omega, List.drop_zero]
    · have h500 : 500 ≤ xs.length := by omega
      have hlendrop : (xs.drop (xs.length - 500)).length = 500 := by
        rw [List.length_drop]
        omega
      rw [pushCapped, if_pos (by simp [hlendrop])]
      have htail : (xs.drop (xs.length - 500) ++ [x]).tail =
          (xs.drop (xs.length - 500)).tail ++ [x] := by
        rcases hd : xs.drop (xs.length - 500) with _ | ⟨y, ys⟩
        · rw [hd] at hlendrop
          simp at hlendrop
        · simp
      rw [htail, List.tail_drop]
      rw [show (xs ++ [x]).length - 500 = (xs.length - 500) + 1 from by simp; omega]
      rw [List.drop_append_of_le_length (by omega)]

/-- C8 (amended): the live telemetry buffer is a 500-entry ring buffer —
after any insertion sequence it holds exactly the most recent
`min n 500` entries in order, oldest first; but the calibration marker buffer
evicts at most ONE entry per capture in the averaging path (so a capture that
appends several marker points to a full buffer leaves it above 500), and the
instant path appends without any cap. -/
theorem history_buffer_bound (xs : List ℚ) :
    ((List.foldl pushCapped ([] : List ℚ) xs = xs.drop (xs.length - 500) ∧
        (List.foldl pushCapped ([] : List ℚ) xs).length = min xs.length 500) ∧
      (∀ buf pts : List ℚ, 500 < (buf ++ pts).length →
        pushMarkersAvg buf pts = (buf ++ pts).tail) ∧
      (∀ buf pts : List ℚ, pushMarkersInstant buf pts = buf ++ pts)) := by
  refine ⟨⟨pushCapped_lastN xs, ?_⟩, ?_, ?_⟩
  · rw [pushCapped_lastN xs, List.length_drop]
    omega
  · intro buf pts h
    rw [pushMarkersAvg, if_pos h]
  · intro buf pts
    rfl

/-- Witness for C8's amended theorem: 501 single insertions leave the
telemetry buffer with the most recent 500; a 2-point capture on a full marker
buffer evicts only one entry. -/
theorem history_buffer_bound_witness :
    (List.foldl pushCapped ([] : List ℚ) (List.replicate 501 0) =
        (List.replicate 501 (0 : ℚ)).drop (501 - 500) ∧
      (List.foldl pushCapped ([] : List ℚ) (List.replicate 501 0)).length =
        min 501 500) ∧
      pushMarkersAvg (List.replicate 500 (0 : ℚ)) [1, 2] =
        (List.replicate 500 (0 : ℚ) ++ [1, 2]).tail := by
  have h := history_buffer_bound (List.replicate 501 (0 : ℚ))
  refine ⟨⟨?_, ?_⟩, ?_⟩
  · have h1 := h.1.1
    rwa [List.length_replicate] at h1
  · have h2 := h.1.2
    rwa [List.length_replicate] at h2
  · exact h.2.1 (List.replicate 500 (0 : ℚ)) [1, 2]
      (by rw [List.length_append, List.length_replicate]; norm_num)

/-- Counterexample to C8 as stated: a capture event that appends two marker
points to a marker buffer holding 500 entries leaves 501 entries — the buffer
is not capped at the most recent 500. -/
theorem history_buffer_claim_false :
    500 < ((List.replicate 500 (0 : ℚ)) ++ [1, 2]).length ∧
      (pushMarkersAvg (List.replicate 500 (0 : ℚ)) [1, 2]).length = 501 := by
  constructor
  · rw [List.length_append, List.length_replicate]
    norm_num
  · rw [pushMarkersAvg, if_pos (by rw [List.length_append, List.length_replicate]; norm_num)]
    rw [List.length_tail, List.length_append, List.length_replicate]
    rfl

/-! ### C9: persistence failure during the averaging commit

`saveCalibrationEntry` (part_003 lines 682–709) posts the entry; on a non-2xx
response it throws, but its own `catch` swallows the error (logging it and
clearing `averagingInProgress`) and does NOT re-throw — so the promise
returned to `handleCalibrate` fulfills and the `.then(‥refit‥)` continuation
runs in both outcomes.  The in-memory log is appended only inside the `try`
after a 2xx response; the marker points were appended before the call.  The
refit closes over the `calibrationLog` value captured when the commit ran. -/

structure CalPoint where
  time : ℕ
  timestamp : ℕ
  temperature : SVal
  thermistorId : ℕ
  resistance : SVal
  color : String
deriving DecidableEq

structure AppState where
  thermistors : List Therm
  calibrationLog : List LogEntry
  calibrationPoints : List CalPoint
  averagingInProgress : Bool
deriving DecidableEq

/-- The commit step of the averaging path (part_003 lines 588–639), with the
persistence outcome of the external POST as an explicit parameter. -/
def commitAveraged (ln : ℚ → ℚ) (persistOk : Bool) (entry : LogEntry)
    (pts : List CalPoint) (s : AppState) : AppState :=
  let s1 : AppState := { s with calibrationPoints := pushMarkersAvg s.calibrationPoints pts }
  let s2 : AppState :=
    if persistOk then { s1 with calibrationLog := s1.calibrationLog ++ [entry] }
    else { s1 with averagingInProgress := false }
  let s3 : AppState := { s2 with thermistors := applyRefit ln s.calibrationLog s2.thermistors }
  { s3 with averagingInProgress := false }

def exEntry : LogEntry := ⟨5, 4, 25, .num 0, .num 0, .num 0, .num 0⟩

def exState : AppState := ⟨[exTherm], exLog, [], true⟩

/-- C9 (amended): on a persistence failure the averaging flag is cleared, the
already-appended marker points are kept and the log entry is NOT appended
(the in-memory log is updated only after a 2xx response, not optimistically);
but the pending coefficient refit IS still performed, because the save helper
catches its own error and the continuation runs. -/
theorem persistence_failure_behavior (ln : ℚ → ℚ) (entry : LogEntry)
    (pts : List CalPoint) (s : AppState) :
    ((commitAveraged ln false entry pts s).calibrationLog = s.calibrationLog ∧
      (commitAveraged ln false entry pts s).averagingInProgress = false ∧
      (commitAveraged ln false entry pts s).calibrationPoints =
        pushMarkersAvg s.calibrationPoints pts ∧
      (commitAveraged ln false entry pts s).thermistors =
        applyRefit ln s.calibrationLog s.thermistors) := by
  refine ⟨?_, ?_, ?_, ?_⟩ <;> rfl

/-- Counterexample to C9 as stated: on persistence failure the refit IS
performed — with prior temperature 7 and stored resistance 0 the refit
overwrites the temperature with the sentinel 0, so the thermistor state
changes even though the append failed. -/
theorem persistence_failure_claim_false :
    (commitAveraged idQ false exEntry [] exState).thermistors ≠
      exState.thermistors := by
  have hrt : refitTherm idQ exLog exTherm =
      Except.ok { exTherm with temperature := .num 0 } := by
    rw [refitTherm, if_neg (by simp [exTherm]), show ((exTherm.id : ℤ) + 28) = 29 from by
      norm_num [exTherm], exLog_coeffs]
    simp only [Except.map]
    rw [show exTherm.resistance = SVal.num 0 from rfl]
    norm_num
  have htherms : (commitAveraged idQ false exEntry [] exState).thermistors =
      applyRefit idQ exLog [exTherm] := rfl
  rw [htherms]
  have happ : applyRefit idQ exLog [exTherm] = [{ exTherm with temperature := .num 0 }] := by
    rw [applyRefit, refitThermistors, hrt]
    rfl
  rw [happ]
  intro hcontra
  rw [show exState.thermistors = [exTherm] from rfl] at hcontra
  rw [List.cons.injEq, Therm.mk.injEq] at hcontra
  have htemp := hcontra.1.2.2.2.1
  rw [show exTherm.temperature = SVal.num 7 from rfl, SVal.num.injEq] at htemp
  norm_num at htemp

end CalibApp
